import Mathlib

/-!
# PolicyChat (static/app.js): a shallow embedding

JavaScript strings are modelled as lists of characters, the DOM as a record of the
properties the controller reads and writes, and the asynchronous `handleSubmit` as
two synchronous halves separated by the settlement of the `/chat` exchange.
-/

namespace PolicyChat

/-- A JavaScript string, as the list of its characters. -/
abbrev JSString := List Char

/-! ## String primitives used by the controller -/

/-- Characters removed by `String.prototype.trim`: ECMAScript WhiteSpace and LineTerminator. -/
def isTrimChar (c : Char) : Bool :=
  let n := c.toNat
  n == 0x09 || n == 0x0A || n == 0x0B || n == 0x0C || n == 0x0D || n == 0x20 ||
  n == 0xA0 || n == 0x1680 || (0x2000 ≤ n && n ≤ 0x200A) || n == 0x2028 || n == 0x2029 ||
  n == 0x202F || n == 0x205F || n == 0x3000 || n == 0xFEFF

/-- `s.trim()`. -/
def trim (s : JSString) : JSString :=
  ((s.dropWhile isTrimChar).reverse.dropWhile isTrimChar).reverse

/-- `s.split(sep)` for a one-character separator: never empty, `"".split(sep)` is `[""]`. -/
def split (sep : Char) : JSString → List JSString
  | [] => [[]]
  | c :: cs =>
    match split sep cs with
    | [] => [[]]
    | seg :: segs => if c = sep then [] :: seg :: segs else (c :: seg) :: segs

/-- `arr.pop()` on an array of strings, read for its return value (the last element). -/
def pop (arr : List JSString) : JSString :=
  arr.getLastD []

/-- `s.replace(pat, rep)` with a string pattern: only the first occurrence is replaced. -/
def replaceFirst (pat rep : JSString) : JSString → JSString
  | [] => if pat = [] then rep else []
  | c :: cs =>
    if pat.isPrefixOf (c :: cs) then rep ++ (c :: cs).drop pat.length
    else c :: replaceFirst pat rep cs

/-- The second `replace` of `displayName`: every dash (global flag) becomes a space. -/
def replaceDashes (s : JSString) : JSString :=
  s.map (fun c => if c = '-' then ' ' else c)

/-- The regular-expression class `\w`: ASCII letters, digits and the underscore. -/
def isWordChar (c : Char) : Bool :=
  c.isAlphanum || c == '_'

/-- `s.replace(/\b\w/g, l => l.toUpperCase())`, scanning left to right; `prevWord` tells
whether the character before the current position is a `\w` character. -/
def upperAtBoundaries (prevWord : Bool) : JSString → JSString
  | [] => []
  | c :: cs =>
    (if isWordChar c && !prevWord then c.toUpper else c) :: upperAtBoundaries (isWordChar c) cs

/-- The `filename` of `updateRecentSources`: `source.split('/').pop().split('\\').pop()`. -/
def filename (source : JSString) : JSString :=
  pop (split '\\' (pop (split '/' source)))

/-- The `displayName` of `updateRecentSources`:
`filename.replace('.md', '')`, then every dash replaced by a space, then
`.replace(/\b\w/g, l => l.toUpperCase())`. -/
def displayName (source : JSString) : JSString :=
  upperAtBoundaries false (replaceDashes (replaceFirst ".md".toList [] (filename source)))

/-- The `escapeHtml` method: `div.textContent = text; return div.innerHTML`. The text becomes a
single text node, and the HTML fragment serialisation of a text node replaces `&`, U+00A0,
`<` and `>` by `&amp;`, `&nbsp;`, `&lt;` and `&gt;`; every other character, quotes included,
is kept. -/
def escapeChar (c : Char) : JSString :=
  if c = '&' then "&amp;".toList
  else if c = '\u00A0' then "&nbsp;".toList
  else if c = '<' then "&lt;".toList
  else if c = '>' then "&gt;".toList
  else [c]

/-- The `escapeHtml` method, character by character. -/
def escapeHtml (text : JSString) : JSString :=
  text.flatMap escapeChar

/-- Template substitution of a number, here a natural number in decimal. -/
def numberToString (n : Nat) : JSString :=
  Nat.toDigits 10 n

/-! ## Data model -/

/-- One citation of a `/chat` answer. -/
structure Citation where
  title : JSString
  url : JSString
  snippet : JSString
  filename : JSString
deriving DecidableEq

/-- The JSON body of a `/chat` response; an absent field reads as `undefined`. -/
structure ChatResponse where
  answer : Option JSString
  citations : Option (List Citation)
  sources : Option (List JSString)
  latency_ms : Option Nat
  retrieved_chunks : Option Nat
deriving DecidableEq

/-- The JSON body of an `/api/stats` response. -/
structure SystemStats where
  total_documents : Nat
  llm_model : JSString
  embedding_model : JSString
deriving DecidableEq

/-- How the two awaits of `handleSubmit` (`fetch`, then `response.json()`) end. -/
inductive ChatOutcome where
  | fetchRejected
  | jsonRejected (ok : Bool)
  | response (ok : Bool) (data : ChatResponse)
deriving DecidableEq

/-- How the two awaits of `loadSystemStats` end. -/
inductive StatsOutcome where
  | fetchRejected
  | jsonRejected (ok : Bool)
  | response (ok : Bool) (data : SystemStats)
deriving DecidableEq

/-- A child of `#chatMessages`: the `div` built by `addMessage` or `addBotMessage`. -/
structure MessageDiv where
  className : JSString
  innerHTML : JSString
deriving DecidableEq

/-- Calls whose order and number matter: form toggling, the modal, the request, focus. -/
inductive Call where
  | setFormEnabled (enabled : Bool)
  | showLoading (shown : Bool)
  | fetchChat (question : JSString)
  | focus
deriving DecidableEq

/-- The part of the page the controller reads and writes. -/
structure Page where
  /-- children of `#chatMessages`, in document order -/
  chatMessages : List MessageDiv
  /-- `questionInput.value` -/
  questionValue : JSString
  /-- `questionInput.disabled` -/
  questionDisabled : Bool
  /-- `sendButton.disabled` -/
  sendDisabled : Bool
  /-- `sendButton.innerHTML` -/
  sendButtonHTML : JSString
  /-- whether `loadingModal` was last shown (true) or hidden (false) -/
  loadingShown : Bool
  /-- `#recentSources` innerHTML -/
  recentSources : JSString
  /-- `#systemStatus` innerHTML -/
  systemStatus : JSString
  /-- `#systemStats` innerHTML -/
  systemStats : JSString
  /-- questions of the `/chat` requests issued and not yet settled, oldest first -/
  pending : List JSString
  /-- log of the calls made so far, oldest first -/
  calls : List Call
deriving DecidableEq

/-! ## Rendering methods -/

/-- The markup assigned to `messageDiv.innerHTML` in `addMessage`. -/
def messageHTML (text sender : JSString) : JSString :=
  let icon := if sender = "user".toList then "fa-user".toList else "fa-robot".toList
  "\n            <div class=\"message-content\">\n                <i class=\"fas ".toList
    ++ icon
    ++ " message-icon\"></i>\n                <div class=\"message-text\">\n                    <p>".toList
    ++ escapeHtml text
    ++ "</p>\n                </div>\n            </div>\n        ".toList

/-- The `addMessage` method. -/
def addMessage (p : Page) (text sender : JSString) : Page :=
  let messageDiv : MessageDiv :=
    { className := "message ".toList ++ sender ++ "-message".toList
      innerHTML := messageHTML text sender }
  { p with chatMessages := p.chatMessages ++ [messageDiv] }

/-- One element of `data.citations.map(...)` in `addBotMessage`. -/
def citationItem (citation : Citation) : JSString :=
  "\n                        <div class=\"citation-item\">\n                            <div class=\"citation-title\">\n                                <a href=\"".toList
    ++ citation.url
    ++ "\" target=\"_blank\" class=\"citation-link\">\n                                    ".toList
    ++ escapeHtml citation.title
    ++ "\n                                    <i class=\"fas fa-external-link-alt\"></i>\n                                </a>\n                            </div>\n                            <div class=\"citation-snippet\">\"".toList
    ++ escapeHtml citation.snippet
    ++ "\"</div>\n                            <div class=\"citation-source\">From: ".toList
    ++ escapeHtml citation.filename
    ++ "</div>\n                        </div>\n                    ".toList

/-- The `citationsHtml` of `addBotMessage`. -/
def citationsHtml (data : ChatResponse) : JSString :=
  match data.citations with
  | some citations =>
    if citations.length > 0 then
      "\n                <div class=\"citations\">\n                    <h6><i class=\"fas fa-quote-left\"></i> Sources:</h6>\n                    ".toList
        ++ (citations.map citationItem).flatten
        ++ "\n                </div>\n            ".toList
    else []
  | none => []

/-- JavaScript truthiness of an optional number: present and not zero. -/
def truthyNumber : Option Nat → Bool
  | some n => n != 0
  | none => false

/-- The `metaHtml` of `addBotMessage`. -/
def metaHtml (data : ChatResponse) : JSString :=
  if truthyNumber data.latency_ms || truthyNumber data.retrieved_chunks then
    "\n                <div class=\"response-meta\">\n                    ".toList
      ++ (match data.latency_ms with
          | some n => if n != 0 then
              "<span class=\"badge bg-info\">".toList ++ numberToString n ++ "ms</span>".toList
            else []
          | none => [])
      ++ "\n                    ".toList
      ++ (match data.retrieved_chunks with
          | some n => if n != 0 then
              "<span class=\"badge bg-secondary\">".toList ++ numberToString n
                ++ " sources</span>".toList
            else []
          | none => [])
      ++ "\n                </div>\n            ".toList
  else []

/-- The markup assigned to `messageDiv.innerHTML` in `addBotMessage`; an `undefined` answer
assigned to `textContent` gives the empty text. -/
def botMessageHTML (data : ChatResponse) : JSString :=
  "\n            <div class=\"message-content\">\n                <i class=\"fas fa-robot message-icon\"></i>\n                <div class=\"message-text\">\n                    <p>".toList
    ++ escapeHtml (data.answer.getD [])
    ++ "</p>\n                    ".toList
    ++ citationsHtml data
    ++ "\n                    ".toList
    ++ metaHtml data
    ++ "\n                </div>\n            </div>\n        ".toList

/-- The `addBotMessage` method. -/
def addBotMessage (p : Page) (data : ChatResponse) : Page :=
  let messageDiv : MessageDiv :=
    { className := "message bot-message".toList
      innerHTML := botMessageHTML data }
  { p with chatMessages := p.chatMessages ++ [messageDiv] }

/-- The `setFormEnabled` method. -/
def setFormEnabled (p : Page) (enabled : Bool) : Page :=
  { p with
    questionDisabled := !enabled
    sendDisabled := !enabled
    sendButtonHTML :=
      if enabled then "<i class=\"fas fa-paper-plane\"></i>".toList
      else "<i class=\"fas fa-spinner fa-spin\"></i>".toList
    calls := p.calls ++ [Call.setFormEnabled enabled] }

/-- The `showLoading` method: `loadingModal.show()` or `loadingModal.hide()`. -/
def showLoading (p : Page) (shown : Bool) : Page :=
  { p with loadingShown := shown, calls := p.calls ++ [Call.showLoading shown] }

/-- `[...new Set(sources)]`: a `Set` keeps insertion order and ignores a value it already holds. -/
def uniqueSources (sources : List JSString) : List JSString :=
  sources.foldl (fun set source => if source ∈ set then set else set ++ [source]) []

/-- The anchor returned by the `map` callback of `updateRecentSources`, as a function of the
three substituted values. -/
def sourceLinkHTML (filename source displayName : JSString) : JSString :=
  "<a href=\"/policy/".toList
    ++ filename
    ++ "\" target=\"_blank\" class=\"source-link\" title=\"".toList
    ++ source
    ++ "\">\n                ".toList
    ++ displayName
    ++ "\n                <i class=\"fas fa-external-link-alt\" style=\"font-size: 0.8em; margin-left: 4px;\"></i>\n            </a>".toList

/-- The `map` callback of `updateRecentSources`. -/
def sourceLink (source : JSString) : JSString :=
  sourceLinkHTML (filename source) source (displayName source)

/-- The array `uniqueSources.slice(0, 5).map(...)` of `updateRecentSources`, before `join`. -/
def sourceLinks (sources : List JSString) : List JSString :=
  ((uniqueSources sources).take 5).map sourceLink

/-- The markup `updateRecentSources` assigns to `#recentSources`. -/
def recentSourcesHTML (sources : List JSString) : JSString :=
  if sources.length = 0 then "<small class=\"text-muted\">No sources</small>".toList
  else (sourceLinks sources).flatten

/-- The `updateRecentSources` method. -/
def updateRecentSources (p : Page) (sources : List JSString) : Page :=
  { p with recentSources := recentSourcesHTML sources }

/-! ## The submit cycle -/

/-- The text of the bot message in the non-2xx branch of `handleSubmit`: `data.answer || '...'`. -/
def errorAnswer (data : ChatResponse) : JSString :=
  match data.answer with
  | some answer =>
    if answer = [] then "Sorry, I encountered an error processing your question.".toList
    else answer
  | none => "Sorry, I encountered an error processing your question.".toList

/-- The part of `handleSubmit` that runs synchronously, up to the `fetch` call: the early
return on an empty trimmed question, the user message, clearing and disabling the form,
showing the modal, issuing the request. -/
def handleSubmitSend (p : Page) : Page :=
  let question := trim p.questionValue
  if question = [] then p
  else
    let p := addMessage p question "user".toList
    let p := { p with questionValue := [] }
    let p := setFormEnabled p false
    let p := showLoading p true
    { p with pending := p.pending ++ [question], calls := p.calls ++ [Call.fetchChat question] }

/-- The `try` block of `handleSubmit` after its two awaits, with its `catch` clause. -/
def handleSubmitTry (p : Page) : ChatOutcome → Page
  | ChatOutcome.response true data =>
    let p := addBotMessage p data
    match data.sources with
    | some sources => if sources.length > 0 then updateRecentSources p sources else p
    | none => p
  | ChatOutcome.response false data => addMessage p (errorAnswer data) "bot".toList
  | ChatOutcome.fetchRejected =>
    addMessage p "Sorry, I encountered a network error. Please try again.".toList "bot".toList
  | ChatOutcome.jsonRejected _ =>
    addMessage p "Sorry, I encountered a network error. Please try again.".toList "bot".toList

/-- The `finally` block of `handleSubmit`. -/
def handleSubmitFinally (p : Page) : Page :=
  let p := showLoading p false
  let p := setFormEnabled p true
  { p with calls := p.calls ++ [Call.focus] }

/-- The rest of `handleSubmit` once the oldest pending exchange settles with outcome `o`;
nothing happens when no exchange is pending. -/
def handleSubmitSettle (p : Page) (o : ChatOutcome) : Page :=
  match p.pending with
  | [] => p
  | _ :: rest => handleSubmitFinally (handleSubmitTry { p with pending := rest } o)

/-- One run of `handleSubmit` with no other event in between, the exchange ending in `o`. -/
def handleSubmit (p : Page) (o : ChatOutcome) : Page :=
  if trim p.questionValue = [] then p
  else handleSubmitSettle (handleSubmitSend p) o

/-- What can happen to the page once the controller is constructed. -/
inductive Event where
  /-- the user edits the text field, leaving `value` in it -/
  | input (value : JSString)
  /-- a `submit` event on `chatForm` -/
  | submit
  /-- a `keypress` event on `questionInput` -/
  | keypress (key : JSString) (shiftKey : Bool)
  /-- the oldest pending `/chat` exchange settles -/
  | settle (o : ChatOutcome)
deriving DecidableEq

/-- One event, with the listeners of `initializeEventListeners`. A disabled text field cannot
be edited by the user; the two listeners are run whenever their event is delivered. -/
def step (p : Page) : Event → Page
  | Event.input value => if p.questionDisabled then p else { p with questionValue := value }
  | Event.submit => handleSubmitSend p
  | Event.keypress key shiftKey =>
    if key = "Enter".toList && !shiftKey then handleSubmitSend p else p
  | Event.settle o => handleSubmitSettle p o

/-- A sequence of events, oldest first. -/
def run (p : Page) (events : List Event) : Page :=
  events.foldl step p

/-- Whether an event is the settlement of an exchange. -/
def Event.isSettle : Event → Bool
  | Event.settle _ => true
  | _ => false

/-- While an exchange is pending the form is cleared and disabled, and it is the only one. -/
def Inv (p : Page) : Prop :=
  p.pending = [] ∨
    (p.pending.length = 1 ∧ p.questionValue = [] ∧ p.questionDisabled = true ∧
      p.sendDisabled = true)

/-! ## Start-up calls -/

/-- The markup `loadSystemStats` assigns to `#systemStats` on a 2xx response. -/
def statsHTML (data : SystemStats) : JSString :=
  "\n                    <div class=\"small\">\n                        <div><strong>Documents:</strong> ".toList
    ++ numberToString data.total_documents
    ++ "</div>\n                        <div><strong>Model:</strong> ".toList
    ++ data.llm_model
    ++ "</div>\n                        <div><strong>Embeddings:</strong> ".toList
    ++ data.embedding_model
    ++ "</div>\n                    </div>\n                ".toList

/-- The `loadSystemStats` method, its two awaits ending in `o`. -/
def loadSystemStats (p : Page) : StatsOutcome → Page
  | StatsOutcome.response ok data =>
    if ok then { p with systemStats := statsHTML data }
    else { p with systemStats := "<small class=\"text-danger\">Failed to load</small>".toList }
  | StatsOutcome.fetchRejected =>
    { p with systemStats := "<small class=\"text-danger\">Error loading stats</small>".toList }
  | StatsOutcome.jsonRejected _ =>
    { p with systemStats := "<small class=\"text-danger\">Error loading stats</small>".toList }

/-! ## Example pages -/

/-- A page right after construction: no message, empty enabled form, nothing pending. -/
def freshPage : Page :=
  { chatMessages := []
    questionValue := []
    questionDisabled := false
    sendDisabled := false
    sendButtonHTML := "<i class=\"fas fa-paper-plane\"></i>".toList
    loadingShown := false
    recentSources := []
    systemStatus := []
    systemStats := []
    pending := []
    calls := [] }

/-- The fresh page with ` hi ` typed in the text field. -/
def typedPage : Page :=
  { freshPage with questionValue := " hi ".toList }

/-- The fresh page with only blanks typed in the text field. -/
def blankPage : Page :=
  { freshPage with questionValue := "  \t ".toList }

/-- A 2xx `/chat` body with one source. -/
def answerWithSource : ChatResponse :=
  { answer := some "first".toList
    citations := none
    sources := some ["a/x.md".toList]
    latency_ms := none
    retrieved_chunks := none }

/-- A 2xx `/chat` body whose sources list is empty. -/
def answerWithoutSources : ChatResponse :=
  { answer := some "second".toList
    citations := none
    sources := some []
    latency_ms := none
    retrieved_chunks := none }

/-- A string that closes an attribute and opens a script element. -/
def scriptPayload : JSString :=
  "\"><script>alert(1)</script>".toList

/-- A 2xx `/chat` body whose single citation carries the payload as its `url`. -/
def injectedAnswer : ChatResponse :=
  { answer := some "ok".toList
    citations := some [{ title := "t".toList, url := scriptPayload, snippet := "s".toList,
                         filename := "f".toList }]
    sources := none
    latency_ms := none
    retrieved_chunks := none }

/-- A 2xx `/api/stats` body whose `llm_model` is the payload. -/
def injectedStats : SystemStats :=
  { total_documents := 3, llm_model := scriptPayload, embedding_model := "e".toList }

/-! ## Definitions that follow the specification's wording -/

/-- The suffix of `s` after the last character satisfying `isSep`; all of `s` when there is
none. -/
def afterLast (isSep : Char → Bool) : JSString → JSString
  | [] => []
  | c :: cs =>
    if cs.any isSep then afterLast isSep cs
    else if isSep c then cs
    else c :: cs

/-- The last path segment: what follows the last occurrence of `/` or `\`. -/
def lastSegment (source : JSString) : JSString :=
  afterLast (fun c => c == '/' || c == '\\') source

/-- A name without its trailing extension: everything before the last dot, or the whole
name when it has no dot. -/
def stripExtension : JSString → JSString
  | [] => []
  | c :: cs =>
    if cs.any (fun d => d == '.') then c :: stripExtension cs
    else if c = '.' then []
    else c :: cs

/-- A name without a trailing `.md`: the only extension that is removed. -/
def stripMd (s : JSString) : JSString :=
  if ".md".toList.isSuffixOf s then s.take (s.length - 3) else s

/-- Upper-cases the first character of each word: a word character is upper-cased when the
character before it is not a word character (or when it is the first of the string). -/
def capitalizeWords (s : JSString) : JSString :=
  List.zipWith (fun prev c => if isWordChar c && !isWordChar prev then c.toUpper else c)
    (' ' :: s) s

/-- The label as the specification words it: last path segment, trailing extension stripped,
dashes replaced by spaces, each word capitalised. -/
def specLabel (source : JSString) : JSString :=
  capitalizeWords (replaceDashes (stripExtension (lastSegment source)))

/-- Decoding of the character references `&amp;`, `&lt;`, `&gt;` and `&nbsp;`, as an HTML
parser reads them in text content; any other character stands for itself. -/
def decodeEntities : JSString → JSString
  | '&' :: 'a' :: 'm' :: 'p' :: ';' :: rest => '&' :: decodeEntities rest
  | '&' :: 'l' :: 't' :: ';' :: rest => '<' :: decodeEntities rest
  | '&' :: 'g' :: 't' :: ';' :: rest => '>' :: decodeEntities rest
  | '&' :: 'n' :: 'b' :: 's' :: 'p' :: ';' :: rest => '\u00A0' :: decodeEntities rest
  | c :: rest => c :: decodeEntities rest
  | [] => []

/-- The character references that `escapeHtml` writes. -/
def entities : List JSString :=
  ["&amp;".toList, "&nbsp;".toList, "&lt;".toList, "&gt;".toList]

/-! ## Path segments and labels -/

theorem split_shape (sep : Char) (s : JSString) :
    ∃ seg segs, split sep s = seg :: segs ∧
      (s.any (fun c => c == sep) = true → segs ≠ []) ∧
      (s.any (fun c => c == sep) = false → segs = [] ∧ seg = s) := by
  induction s with
  | nil => exact ⟨[], [], rfl, by simp, by simp⟩
  | cons c cs ih =>
    obtain ⟨seg, segs, h, h1, h2⟩ := ih
    by_cases hc : c = sep
    · exact ⟨[], seg :: segs, by simp [split, h, hc], by simp, by simp [hc]⟩
    · refine ⟨c :: seg, segs, by simp [split, h, hc], ?_, ?_⟩
      · intro h
        apply h1
        simpa [hc] using h
      · intro h
        have := h2 (by simpa [hc] using h)
        simp [this]

theorem pop_split (sep : Char) (s : JSString) :
    pop (split sep s) = afterLast (fun c => c == sep) s := by
  induction s with
  | nil => rfl
  | cons c cs ih =>
    obtain ⟨seg, segs, h, h1, h2⟩ := split_shape sep cs
    simp only [afterLast]
    by_cases hany : cs.any (fun c => c == sep) = true
    · have hne := h1 hany
      rw [if_pos hany, ← ih]
      obtain ⟨x, xs, rfl⟩ := List.exists_cons_of_ne_nil hne
      by_cases hc : c = sep <;> simp [split, h, hc, pop]
    · have hfalse : cs.any (fun c => c == sep) = false := by rwa [Bool.not_eq_true] at hany
      obtain ⟨rfl, rfl⟩ := h2 hfalse
      rw [if_neg hany]
      by_cases hc : c = sep <;> simp [split, h, hc, pop]

theorem afterLast_of_none (isSep : Char → Bool) (s : JSString)
    (h : s.any isSep = false) : afterLast isSep s = s := by
  cases s with
  | nil => rfl
  | cons c cs =>
    simp only [List.any_cons, Bool.or_eq_false_iff] at h
    simp [afterLast, h.1, h.2]

theorem any_or_of_none (a b : Char → Bool) (s : JSString) (h : s.any b = false) :
    s.any (fun c => a c || b c) = s.any a := by
  induction s with
  | nil => rfl
  | cons c cs ih =>
    simp only [List.any_cons, Bool.or_eq_false_iff] at h
    simp only [List.any_cons, h.1, Bool.or_false, ih h.2]

theorem afterLast_or_of_none (a b : Char → Bool) (s : JSString)
    (h : s.any b = false) :
    afterLast (fun c => a c || b c) s = afterLast a s := by
  induction s with
  | nil => rfl
  | cons c cs ih =>
    simp only [List.any_cons, Bool.or_eq_false_iff] at h
    simp only [afterLast, any_or_of_none a b cs h.2, h.1, Bool.or_false, ih h.2]

theorem afterLast_afterLast (a b : Char → Bool) (s : JSString) :
    afterLast a (afterLast b s) = afterLast (fun c => a c || b c) s := by
  induction s with
  | nil => rfl
  | cons c cs ih =>
    by_cases hb : cs.any b = true
    · have hab : cs.any (fun c => a c || b c) = true := by
        simp only [List.any_eq_true] at hb ⊢
        obtain ⟨x, hx, hbx⟩ := hb
        exact ⟨x, hx, by simp [hbx]⟩
      simp only [afterLast, hb, hab, if_true, ih]
    · rw [Bool.not_eq_true] at hb
      by_cases hc : b c = true
      · simp only [afterLast, hb, hc, any_or_of_none a b cs hb, Bool.or_true, if_true,
          Bool.false_eq_true, if_false]
        by_cases ha : cs.any a = true
        · simp only [ha, if_true, afterLast_or_of_none a b cs hb]
        · rw [Bool.not_eq_true] at ha
          simp only [ha, Bool.false_eq_true, if_false, afterLast_of_none a cs ha]
      · rw [Bool.not_eq_true] at hc
        have hcs : (c :: cs).any b = false := by simp [hb, hc]
        rw [afterLast_of_none b _ hcs, afterLast_or_of_none a b _ hcs]

/-- The source's two `split(...).pop()` steps yield the suffix after the last separator. -/
theorem filename_eq_lastSegment (source : JSString) :
    filename source = lastSegment source := by
  unfold filename lastSegment
  rw [pop_split, pop_split, afterLast_afterLast]
  congr 1
  funext c
  exact Bool.or_comm _ _

theorem replaceFirst_of_absent (pat rep s : JSString) (hpat : pat ≠ [])
    (h : ¬ pat <:+: s) : replaceFirst pat rep s = s := by
  induction s with
  | nil => simp [replaceFirst, hpat]
  | cons c cs ih =>
    have hpre : ¬ pat <+: c :: cs := fun hp => h hp.isInfix
    have htail : ¬ pat <:+: cs := fun hi => h (hi.trans (List.suffix_cons c cs).isInfix)
    have hfalse : pat.isPrefixOf (c :: cs) = false := by
      rw [← Bool.not_eq_true, List.isPrefixOf_iff_prefix]
      exact hpre
    simp [replaceFirst, hfalse, ih htail]

theorem replaceFirst_md (stem : JSString) (h : ¬ ['.', 'm', 'd'] <:+: stem) :
    replaceFirst ['.', 'm', 'd'] [] (stem ++ ['.', 'm', 'd']) = stem := by
  induction stem with
  | nil => decide
  | cons c cs ih =>
    have htail : ¬ ['.', 'm', 'd'] <:+: cs :=
      fun hi => h (hi.trans (List.suffix_cons c cs).isInfix)
    have hpre : ¬ ['.', 'm', 'd'] <+: c :: (cs ++ ['.', 'm', 'd']) := by
      intro hp
      match cs, h with
      | [], _ => simp [List.cons_prefix_cons] at hp
      | [d], _ => simp [List.cons_prefix_cons] at hp
      | d :: e :: rest, h =>
        apply h
        simp only [List.cons_append, List.cons_prefix_cons] at hp
        obtain ⟨rfl, rfl, rfl, -⟩ := hp
        exact (List.prefix_append ['.', 'm', 'd'] rest).isInfix
    have hfalse : List.isPrefixOf ['.', 'm', 'd'] (c :: (cs ++ ['.', 'm', 'd'])) = false := by
      rw [← Bool.not_eq_true, List.isPrefixOf_iff_prefix]
      exact hpre
    rw [List.cons_append, replaceFirst, if_neg (by rw [hfalse]; decide), ih htail]

theorem upperAtBoundaries_eq_zipWith (prev : Char) (s : JSString) :
    upperAtBoundaries (isWordChar prev) s =
      List.zipWith (fun prev c => if isWordChar c && !isWordChar prev then c.toUpper else c)
        (prev :: s) s := by
  induction s generalizing prev with
  | nil => rfl
  | cons c cs ih => simp only [upperAtBoundaries, List.zipWith_cons_cons, ih c]

theorem upperAtBoundaries_eq_capitalizeWords (s : JSString) :
    upperAtBoundaries false s = capitalizeWords s :=
  upperAtBoundaries_eq_zipWith ' ' s

theorem stripMd_append (stem : JSString) : stripMd (stem ++ ['.', 'm', 'd']) = stem := by
  have hs : List.isSuffixOf ['.', 'm', 'd'] (stem ++ ['.', 'm', 'd']) = true := by
    rw [List.isSuffixOf_iff_suffix]
    exact List.suffix_append stem _
  have hm : ".md".toList = ['.', 'm', 'd'] := rfl
  simp [stripMd, hm, hs]

theorem displayName_eq_of_md_at_end (source : JSString)
    (h : ¬ ['.', 'm', 'd'] <:+: (lastSegment source).dropLast) :
    displayName source = capitalizeWords (replaceDashes (stripMd (lastSegment source))) := by
  have hm : ".md".toList = ['.', 'm', 'd'] := rfl
  unfold displayName
  rw [upperAtBoundaries_eq_capitalizeWords, filename_eq_lastSegment, hm]
  congr 2
  generalize lastSegment source = seg at h
  by_cases hsuf : ['.', 'm', 'd'] <:+ seg
  · obtain ⟨stem, rfl⟩ := hsuf
    have hstem : ¬ ['.', 'm', 'd'] <:+: stem := by
      intro hi
      apply h
      have hd : (stem ++ ['.', 'm', 'd']).dropLast = stem ++ ['.', 'm'] := by
        rw [List.dropLast_append_of_ne_nil _ (by simp)]
        rfl
      rw [hd]
      exact hi.trans (List.prefix_append stem _).isInfix
    rw [replaceFirst_md stem hstem, stripMd_append]
  · have hinf : ¬ ['.', 'm', 'd'] <:+: seg := by
      rintro ⟨a, b, rfl⟩
      rcases List.eq_nil_or_concat b with rfl | ⟨b', x, rfl⟩
      · exact hsuf ⟨a, by simp⟩
      · apply h
        refine ⟨a, b', ?_⟩
        rw [List.concat_eq_append, ← List.append_assoc, List.dropLast_concat]
    have hs : List.isSuffixOf ['.', 'm', 'd'] seg = false := by
      rw [← Bool.not_eq_true, List.isSuffixOf_iff_suffix]
      exact hsuf
    rw [replaceFirst_of_absent _ _ _ (by simp) hinf]
    simp [stripMd, hm, hs]

/-! ## Escaping -/

theorem decodeEntities_cons_of_ne (c : Char) (rest : JSString) (h : c ≠ '&') :
    decodeEntities (c :: rest) = c :: decodeEntities rest := by
  rw [decodeEntities]
  all_goals simp_all

theorem decodeEntities_escapeChar (c : Char) (rest : JSString) :
    decodeEntities (escapeChar c ++ rest) = c :: decodeEntities rest := by
  unfold escapeChar
  split_ifs with h1 h2 h3 h4
  · subst h1; rfl
  · subst h2; rfl
  · subst h3; rfl
  · subst h4; rfl
  · exact decodeEntities_cons_of_ne c rest h1

theorem decodeEntities_escapeHtml (text : JSString) :
    decodeEntities (escapeHtml text) = text := by
  induction text with
  | nil => rfl
  | cons c cs ih =>
    have h : escapeHtml (c :: cs) = escapeChar c ++ escapeHtml cs := by
      simp [escapeHtml]
    rw [h, decodeEntities_escapeChar, ih]

theorem escapeChar_no_angle (c d : Char) (h : d ∈ escapeChar c) : d ≠ '<' ∧ d ≠ '>' := by
  unfold escapeChar at h
  split_ifs at h with h1 h2 h3 h4
  · revert d; decide
  · revert d; decide
  · revert d; decide
  · revert d; decide
  · rw [List.mem_singleton] at h
    subst h
    exact ⟨h3, h4⟩

theorem escapeHtml_no_angle (text : JSString) (d : Char) (h : d ∈ escapeHtml text) :
    d ≠ '<' ∧ d ≠ '>' := by
  unfold escapeHtml at h
  rw [List.mem_flatMap] at h
  obtain ⟨c, -, hd⟩ := h
  exact escapeChar_no_angle c d hd

/-- The escape of one character is either one of the four references, or the character
itself when it is not an ampersand. -/
theorem escapeChar_shape (c : Char) :
    (∃ tl, escapeChar c = '&' :: tl ∧ '&' ∉ tl ∧ escapeChar c ∈ entities) ∨
      (escapeChar c = [c] ∧ c ≠ '&') := by
  unfold escapeChar
  split_ifs with h1 h2 h3 h4
  · exact Or.inl ⟨_, rfl, by decide, by decide⟩
  · exact Or.inl ⟨_, rfl, by decide, by decide⟩
  · exact Or.inl ⟨_, rfl, by decide, by decide⟩
  · exact Or.inl ⟨_, rfl, by decide, by decide⟩
  · exact Or.inr ⟨rfl, h1⟩

theorem escapeHtml_amp_starts_entity (text pre post : JSString)
    (h : escapeHtml text = pre ++ '&' :: post) :
    ∃ e ∈ entities, e <+: '&' :: post := by
  induction text generalizing pre with
  | nil => simp [escapeHtml] at h
  | cons c cs ih =>
    have hc : escapeHtml (c :: cs) = escapeChar c ++ escapeHtml cs := by
      simp [escapeHtml]
    rw [hc] at h
    rcases escapeChar_shape c with ⟨tl, htl, hno, hent⟩ | ⟨hsingle, hne⟩
    · cases pre with
      | nil =>
        refine ⟨escapeChar c, hent, ?_⟩
        rw [List.nil_append] at h
        rw [← h]
        exact List.prefix_append _ _
      | cons x pre' =>
        rw [htl, List.cons_append, List.cons_append, List.cons.injEq] at h
        obtain ⟨-, h⟩ := h
        rcases List.append_eq_append_iff.mp h with ⟨a, ha, hb⟩ | ⟨b, ha, hb⟩
        · exact ih a hb
        · cases b with
          | nil =>
            rw [List.nil_append] at hb
            exact ih [] hb.symm
          | cons y b' =>
            rw [List.cons_append, List.cons.injEq] at hb
            exfalso
            apply hno
            rw [ha, ← hb.1]
            simp
    · cases pre with
      | nil =>
        rw [hsingle, List.nil_append, List.singleton_append, List.cons.injEq] at h
        exact absurd h.1 hne
      | cons x pre' =>
        rw [hsingle, List.singleton_append, List.cons_append, List.cons.injEq] at h
        exact ih pre' h.2

/-! ## Deduplication -/

theorem trim_eq_nil_of_all (s : JSString) (h : ∀ c ∈ s, isTrimChar c = true) : trim s = [] := by
  have hd : s.dropWhile isTrimChar = [] := List.dropWhile_eq_nil_iff.mpr h
  simp [trim, hd]

theorem handleSubmitSend_of_blank (p : Page) (h : trim p.questionValue = []) :
    handleSubmitSend p = p := by
  simp [handleSubmitSend, h]

theorem handleSubmitSend_of_question (p : Page) (h : trim p.questionValue ≠ []) :
    handleSubmitSend p =
      { p with
        chatMessages := p.chatMessages ++
          [{ className := "message user-message".toList
             innerHTML := messageHTML (trim p.questionValue) "user".toList }]
        questionValue := []
        questionDisabled := true
        sendDisabled := true
        sendButtonHTML := "<i class=\"fas fa-spinner fa-spin\"></i>".toList
        loadingShown := true
        pending := p.pending ++ [trim p.questionValue]
        calls := p.calls ++ [Call.setFormEnabled false, Call.showLoading true,
          Call.fetchChat (trim p.questionValue)] } := by
  simp only [handleSubmitSend, if_neg h, addMessage, setFormEnabled, showLoading]
  simp

theorem handleSubmitTry_frame (p : Page) (o : ChatOutcome) :
    (handleSubmitTry p o).pending = p.pending ∧ (handleSubmitTry p o).calls = p.calls ∧
      (handleSubmitTry p o).questionValue = p.questionValue := by
  cases o with
  | fetchRejected => exact ⟨rfl, rfl, rfl⟩
  | jsonRejected ok => exact ⟨rfl, rfl, rfl⟩
  | response ok data =>
    cases ok with
    | false => exact ⟨rfl, rfl, rfl⟩
    | true =>
      simp only [handleSubmitTry]
      split
      · split <;> exact ⟨rfl, rfl, rfl⟩
      · exact ⟨rfl, rfl, rfl⟩

theorem handleSubmitFinally_spec (p : Page) :
    handleSubmitFinally p =
      { p with
        questionDisabled := false
        sendDisabled := false
        sendButtonHTML := "<i class=\"fas fa-paper-plane\"></i>".toList
        loadingShown := false
        calls := p.calls ++ [Call.showLoading false, Call.setFormEnabled true, Call.focus] } := by
  simp [handleSubmitFinally, setFormEnabled, showLoading]

theorem inv_step (p : Page) (e : Event) (h : Inv p) : Inv (step p e) := by
  have hsend : Inv (handleSubmitSend p) := by
    by_cases hq : trim p.questionValue = []
    · rw [handleSubmitSend_of_blank p hq]
      exact h
    · rcases h with h | ⟨-, hv, -, -⟩
      · rw [handleSubmitSend_of_question p hq]
        exact Or.inr ⟨by simp [h], rfl, rfl, rfl⟩
      · rw [hv] at hq
        exact absurd rfl hq
  cases e with
  | input value =>
    simp only [step]
    split
    · exact h
    · rename_i hd
      rcases h with h | ⟨-, -, hdis, -⟩
      · exact Or.inl h
      · exact absurd hdis hd
  | submit => exact hsend
  | keypress key shiftKey =>
    simp only [step]
    split
    · exact hsend
    · exact h
  | settle o =>
    simp only [step, handleSubmitSettle]
    split
    · exact h
    · rename_i x rest hp
      rcases h with h | ⟨hlen, -, -, -⟩
      · rw [h] at hp
        cases hp
      · rw [hp] at hlen
        have hrest : rest = [] := List.length_eq_zero.mp (by simpa using hlen)
        left
        rw [handleSubmitFinally_spec]
        simp only
        rw [(handleSubmitTry_frame _ o).1]
        exact hrest

theorem inv_run (p : Page) (events : List Event) (h : Inv p) : Inv (run p events) := by
  induction events generalizing p with
  | nil => exact h
  | cons e es ih => exact ih (step p e) (inv_step p e h)

theorem run_of_no_settle (p : Page) (events : List Event)
    (hv : p.questionValue = []) (hd : p.questionDisabled = true)
    (hev : ∀ e ∈ events, Event.isSettle e = false) : run p events = p := by
  have hblank : handleSubmitSend p = p := handleSubmitSend_of_blank p (by rw [hv]; rfl)
  induction events with
  | nil => rfl
  | cons e es ih =>
    have hstep : step p e = p := by
      cases e with
      | input value => simp [step, hd]
      | submit => exact hblank
      | keypress key shiftKey => simp [step, hblank]
      | settle o => simpa [Event.isSettle] using hev (Event.settle o) (List.mem_cons_self _ _)
    simp only [run, List.foldl_cons, hstep]
    exact ih (fun e he => hev e (List.mem_cons_of_mem _ he))

theorem handleSubmitSettle_of_pending (q : Page) (o : ChatOutcome) (h : q.pending ≠ []) :
    handleSubmitSettle q o =
      handleSubmitFinally (handleSubmitTry { q with pending := q.pending.tail } o) := by
  unfold handleSubmitSettle
  split
  · rename_i hp
    exact absurd hp h
  · rename_i x rest hp
    rw [hp, List.tail_cons]

theorem handleSubmitSettle_of_question (p : Page) (o : ChatOutcome)
    (h : trim p.questionValue ≠ []) :
    ∃ mid : Page, mid.chatMessages = (handleSubmitSend p).chatMessages ∧
      mid.calls = (handleSubmitSend p).calls ∧
      handleSubmitSettle (handleSubmitSend p) o = handleSubmitFinally (handleSubmitTry mid o) := by
  refine ⟨{ handleSubmitSend p with pending := (handleSubmitSend p).pending.tail }, rfl, rfl,
    handleSubmitSettle_of_pending _ o ?_⟩
  rw [handleSubmitSend_of_question p h]
  simp

/-! ## The claims -/

/-- C2: when the text field holds only characters that `trim` removes (or nothing),
`handleSubmit` leaves the whole page as it was: no message, no request, the same value,
the same enabled state of both controls, the same modal state, no call logged. -/
theorem handleSubmit_blank_is_noop (p : Page) (o : ChatOutcome)
    (h : ∀ c ∈ p.questionValue, isTrimChar c = true) :
    handleSubmit p o = p ∧ handleSubmitSend p = p := by
  have ht := trim_eq_nil_of_all p.questionValue h
  exact ⟨by simp [handleSubmit, ht], handleSubmitSend_of_blank p ht⟩

/-- C2 at the page with blanks and a tab typed. -/
theorem handleSubmit_blank_is_noop_witness :
    (∀ c ∈ blankPage.questionValue, isTrimChar c = true) ∧
      handleSubmit blankPage ChatOutcome.fetchRejected = blankPage ∧
      handleSubmitSend blankPage = blankPage :=
  ⟨by decide, handleSubmit_blank_is_noop blankPage ChatOutcome.fetchRejected (by decide)⟩

/-- C3: for a non-blank question, the form is disabled and the modal shown before the
request is issued; events other than the settlement leave that page untouched; and when the
exchange settles, whatever the outcome, the modal is hidden and the form re-enabled, each
by a single call, so that the cycle ends with modal hidden, input and button enabled. -/
theorem handleSubmit_controls (p : Page) (o : ChatOutcome) (events : List Event)
    (h : trim p.questionValue ≠ [])
    (hev : ∀ e ∈ events, Event.isSettle e = false) :
    (handleSubmitSend p).questionDisabled = true ∧
    (handleSubmitSend p).sendDisabled = true ∧
    (handleSubmitSend p).loadingShown = true ∧
    (handleSubmitSend p).calls = p.calls ++
      [Call.setFormEnabled false, Call.showLoading true,
        Call.fetchChat (trim p.questionValue)] ∧
    run (handleSubmitSend p) events = handleSubmitSend p ∧
    (handleSubmit p o).loadingShown = false ∧
    (handleSubmit p o).questionDisabled = false ∧
    (handleSubmit p o).sendDisabled = false ∧
    (handleSubmit p o).calls = (handleSubmitSend p).calls ++
      [Call.showLoading false, Call.setFormEnabled true, Call.focus] := by
  obtain ⟨mid, -, hcalls, hsettle⟩ := handleSubmitSettle_of_question p o h
  have hrun : run (handleSubmitSend p) events = handleSubmitSend p :=
    run_of_no_settle _ events (by rw [handleSubmitSend_of_question p h])
      (by rw [handleSubmitSend_of_question p h]) hev
  have hdone : handleSubmit p o = handleSubmitFinally (handleSubmitTry mid o) := by
    rw [handleSubmit, if_neg h, hsettle]
  refine ⟨?_, ?_, ?_, ?_, hrun, ?_, ?_, ?_, ?_⟩
  · rw [handleSubmitSend_of_question p h]
  · rw [handleSubmitSend_of_question p h]
  · rw [handleSubmitSend_of_question p h]
  · rw [handleSubmitSend_of_question p h]
  · rw [hdone, handleSubmitFinally_spec]
  · rw [hdone, handleSubmitFinally_spec]
  · rw [hdone, handleSubmitFinally_spec]
  · rw [hdone, handleSubmitFinally_spec]
    simp only
    rw [(handleSubmitTry_frame mid o).2.1, hcalls]

/-- C3 on the page with ` hi ` typed, a rejected `fetch`, and an edit attempt plus a second
submit event while the exchange is pending. -/
theorem handleSubmit_controls_witness :
    trim typedPage.questionValue ≠ [] ∧
    (∀ e ∈ [Event.input "x".toList, Event.submit], Event.isSettle e = false) ∧
    (handleSubmit typedPage ChatOutcome.fetchRejected).loadingShown = false ∧
    (handleSubmit typedPage ChatOutcome.fetchRejected).questionDisabled = false ∧
    (handleSubmit typedPage ChatOutcome.fetchRejected).sendDisabled = false ∧
    (handleSubmit typedPage ChatOutcome.fetchRejected).calls =
      (handleSubmitSend typedPage).calls ++
        [Call.showLoading false, Call.setFormEnabled true, Call.focus] :=
  ⟨by decide, by decide,
    (handleSubmit_controls typedPage ChatOutcome.fetchRejected
      [Event.input "x".toList, Event.submit] (by decide) (by decide)).2.2.2.2.2⟩

/-- C10: from a page with nothing pending, whatever events follow (edits of an enabled text
field, submit events, keypresses, settlements), at most one `/chat` exchange is pending, and
while one is pending both controls are disabled and either listener leaves the page as it
is: no message appended, no request issued. -/
theorem no_reentrant_submission (p0 : Page) (events : List Event) (h0 : p0.pending = []) :
    (run p0 events).pending.length ≤ 1 ∧
    ((run p0 events).pending ≠ [] →
      (run p0 events).questionDisabled = true ∧
      (run p0 events).sendDisabled = true ∧
      step (run p0 events) Event.submit = run p0 events ∧
      ∀ key shiftKey, step (run p0 events) (Event.keypress key shiftKey) = run p0 events) := by
  have hinv := inv_run p0 events (Or.inl h0)
  generalize run p0 events = p at hinv
  rcases hinv with hnil | ⟨hlen, hv, hd, hs⟩
  · exact ⟨by simp [hnil], fun hne => absurd hnil hne⟩
  · have hblank : handleSubmitSend p = p := handleSubmitSend_of_blank p (by rw [hv]; rfl)
    refine ⟨hlen.le, fun _ => ⟨hd, hs, hblank, ?_⟩⟩
    intro key shiftKey
    simp [step, hblank]

/-- C10 on the fresh page: a question is typed and submitted, then a second submit event
arrives while the exchange is pending. -/
theorem no_reentrant_submission_witness :
    freshPage.pending = [] ∧
    (run freshPage [Event.input " hi ".toList, Event.submit]).pending.length ≤ 1 ∧
    ((run freshPage [Event.input " hi ".toList, Event.submit]).pending ≠ [] →
      (run freshPage [Event.input " hi ".toList, Event.submit]).questionDisabled = true ∧
      (run freshPage [Event.input " hi ".toList, Event.submit]).sendDisabled = true ∧
      step (run freshPage [Event.input " hi ".toList, Event.submit]) Event.submit =
        run freshPage [Event.input " hi ".toList, Event.submit] ∧
      ∀ key shiftKey,
        step (run freshPage [Event.input " hi ".toList, Event.submit])
          (Event.keypress key shiftKey) =
        run freshPage [Event.input " hi ".toList, Event.submit]) :=
  ⟨rfl, no_reentrant_submission freshPage [Event.input " hi ".toList, Event.submit] rfl⟩

/-- C7, as stated, fails: the code removes only the first `.md` it finds. A `.pdf`
extension is kept (and capitalised), and a name with an earlier `.md` loses that one
instead of its trailing extension. -/
theorem displayName_differs_from_specLabel :
    displayName "x/policy.pdf".toList ≠ specLabel "x/policy.pdf".toList ∧
    displayName "x/policy.pdf".toList = "Policy.Pdf".toList ∧
    specLabel "x/policy.pdf".toList = "Policy".toList ∧
    displayName "x/notes.mdx.md".toList ≠ specLabel "x/notes.mdx.md".toList ∧
    displayName "x/notes.mdx.md".toList = "Notesx.Md".toList ∧
    specLabel "x/notes.mdx.md".toList = "Notes.Mdx".toList := by
  decide

/-- C7, amended: when `.md` occurs in the last path segment nowhere but at its very end, the
label is the last path segment (what follows the last `/` or `\`), without a trailing
`.md`, with every dash replaced by a space and the first character of each run of word
characters upper-cased. -/
theorem displayName_of_md_at_end (source : JSString)
    (h : ¬ ".md".toList <:+: (lastSegment source).dropLast) :
    filename source = lastSegment source ∧
    displayName source = capitalizeWords (replaceDashes (stripMd (lastSegment source))) :=
  ⟨filename_eq_lastSegment source, displayName_eq_of_md_at_end source h⟩

/-- C7 amended, on the specification's two examples. -/
theorem displayName_of_md_at_end_witness :
    ¬ ".md".toList <:+: (lastSegment "a/b/weekly-report.md".toList).dropLast ∧
    (filename "a/b/weekly-report.md".toList = lastSegment "a/b/weekly-report.md".toList ∧
      displayName "a/b/weekly-report.md".toList =
        capitalizeWords (replaceDashes (stripMd (lastSegment "a/b/weekly-report.md".toList)))) ∧
    displayName "a/b/weekly-report.md".toList = "Weekly Report".toList ∧
    displayName "x/policy.md".toList = "Policy".toList :=
  ⟨by decide, displayName_of_md_at_end "a/b/weekly-report.md".toList (by decide),
    by decide, by decide⟩

set_option maxRecDepth 100000 in
/-- C9, as stated, fails: after an answer with a source, a second successful answer whose
sources list is empty leaves the first answer's link in the panel instead of the
placeholder. -/
theorem recentSources_kept_after_empty_sources :
    (handleSubmit
        { handleSubmit typedPage (ChatOutcome.response true answerWithSource) with
          questionValue := "more".toList }
        (ChatOutcome.response true answerWithoutSources)).recentSources
      = sourceLink "a/x.md".toList ∧
    sourceLink "a/x.md".toList ≠ recentSourcesHTML [] := by
  decide

/-- C9, amended: after a successful submit whose answer has a non-empty sources list the
panel holds the links rendered for that list; when the list is empty or absent the panel is
left as it was. -/
theorem handleSubmit_recentSources (p : Page) (data : ChatResponse)
    (h : trim p.questionValue ≠ []) :
    (∀ sources, data.sources = some sources → sources ≠ [] →
      (handleSubmit p (ChatOutcome.response true data)).recentSources =
        (sourceLinks sources).flatten) ∧
    (data.sources = none ∨ data.sources = some [] →
      (handleSubmit p (ChatOutcome.response true data)).recentSources = p.recentSources) := by
  have hdone : handleSubmit p (ChatOutcome.response true data) =
      handleSubmitFinally (handleSubmitTry
        { handleSubmitSend p with pending := (handleSubmitSend p).pending.tail }
        (ChatOutcome.response true data)) := by
    rw [handleSubmit, if_neg h]
    apply handleSubmitSettle_of_pending
    rw [handleSubmitSend_of_question p h]
    simp
  rw [hdone, handleSubmitFinally_spec, handleSubmitSend_of_question p h]
  constructor
  · intro sources hs hne
    have hlen : sources.length ≠ 0 := fun h0 => hne (List.length_eq_zero.mp h0)
    have hpos : sources.length > 0 := Nat.pos_of_ne_zero hlen
    simp [handleSubmitTry, hs, hpos, updateRecentSources, recentSourcesHTML, hlen, addBotMessage]
  · rintro (hs | hs) <;> simp [handleSubmitTry, hs, addBotMessage]

/-- C9 amended, on the page with ` hi ` typed and the answer with one source. -/
theorem handleSubmit_recentSources_witness :
    trim typedPage.questionValue ≠ [] ∧
    (∀ sources, answerWithSource.sources = some sources → sources ≠ [] →
      (handleSubmit typedPage (ChatOutcome.response true answerWithSource)).recentSources =
        (sourceLinks sources).flatten) ∧
    (answerWithSource.sources = none ∨ answerWithSource.sources = some [] →
      (handleSubmit typedPage (ChatOutcome.response true answerWithSource)).recentSources =
        typedPage.recentSources) :=
  ⟨by decide, handleSubmit_recentSources typedPage answerWithSource (by decide)⟩

/-- C5: the paragraph of a message built by `addMessage` or `addBotMessage` holds
`escapeHtml` of the text between `<p>` and `</p>`; that escape has no `<` and no `>`, each of
its `&` starts one of the references `&amp;`, `&nbsp;`, `&lt;`, `&gt;`, and decoding the
references gives the text back. -/
theorem paragraph_is_escaped_text (text : JSString) :
    (∀ sender, ∃ pre post, ∀ t,
      messageHTML t sender = pre ++ "<p>".toList ++ escapeHtml t ++ "</p>".toList ++ post) ∧
    (∃ pre, ∀ data : ChatResponse, ∃ post,
      botMessageHTML data =
        pre ++ "<p>".toList ++ escapeHtml (data.answer.getD []) ++ "</p>".toList ++ post) ∧
    (∀ d ∈ escapeHtml text, d ≠ '<' ∧ d ≠ '>') ∧
    (∀ pre post, escapeHtml text = pre ++ '&' :: post → ∃ e ∈ entities, e <+: '&' :: post) ∧
    decodeEntities (escapeHtml text) = text := by
  refine ⟨?_, ?_, escapeHtml_no_angle text, escapeHtml_amp_starts_entity text,
    decodeEntities_escapeHtml text⟩
  · intro sender
    refine ⟨"\n            <div class=\"message-content\">\n                <i class=\"fas ".toList
        ++ (if sender = "user".toList then "fa-user".toList else "fa-robot".toList)
        ++ " message-icon\"></i>\n                <div class=\"message-text\">\n                    ".toList,
      "\n                </div>\n            </div>\n        ".toList, ?_⟩
    intro t
    have h1 : " message-icon\"></i>\n                <div class=\"message-text\">\n                    <p>".toList
        = " message-icon\"></i>\n                <div class=\"message-text\">\n                    ".toList
          ++ "<p>".toList := by decide
    have h2 : "</p>\n                </div>\n            </div>\n        ".toList
        = "</p>".toList ++ "\n                </div>\n            </div>\n        ".toList := by
      decide
    simp only [messageHTML, h1, h2, List.append_assoc]
  · refine ⟨"\n            <div class=\"message-content\">\n                <i class=\"fas fa-robot message-icon\"></i>\n                <div class=\"message-text\">\n                    ".toList,
      ?_⟩
    intro data
    refine ⟨"\n                    ".toList ++ citationsHtml data ++ "\n                    ".toList
      ++ metaHtml data ++ "\n                </div>\n            </div>\n        ".toList, ?_⟩
    have h1 : "\n            <div class=\"message-content\">\n                <i class=\"fas fa-robot message-icon\"></i>\n                <div class=\"message-text\">\n                    <p>".toList
        = "\n            <div class=\"message-content\">\n                <i class=\"fas fa-robot message-icon\"></i>\n                <div class=\"message-text\">\n                    ".toList
          ++ "<p>".toList := by decide
    have h2 : "</p>\n                    ".toList = "</p>".toList ++ "\n                    ".toList := by
      decide
    simp only [botMessageHTML, h1, h2, List.append_assoc]

/-- C5 on the text `<script>`: it is written as `&lt;script&gt;` and reads back unchanged. -/
theorem paragraph_is_escaped_text_witness :
    escapeHtml "<script>".toList = "&lt;script&gt;".toList ∧
    decodeEntities (escapeHtml "<script>".toList) = "<script>".toList :=
  ⟨by decide, (paragraph_is_escaped_text "<script>".toList).2.2.2.2⟩

set_option maxRecDepth 100000 in
/-- C4 fails on the code: a citation `url`, a stats model name and a source path reach the
markup as they are, script element included, while the same string given as message text is
escaped. -/
theorem unescaped_values_reach_markup :
    scriptPayload <:+: botMessageHTML injectedAnswer ∧
    scriptPayload <:+: statsHTML injectedStats ∧
    scriptPayload <:+: recentSourcesHTML [scriptPayload] ∧
    ¬ scriptPayload <:+: messageHTML scriptPayload "bot".toList := by
  decide

end PolicyChat
